import Mathlib

/-! Ticket service: authorization middleware and request dispatch.

A shallow embedding of `ticket-service/main.go` and the properties of its
authorization middleware, its dispatcher and its four ticket operations.

Conventions of the embedding

* A Go `string` is a Lean `String`; byte lengths are taken with
  `String.utf8ByteSize`, so the embedding covers every valid UTF-8 string.
* A Go `int` is a Lean `Int` in the 64-bit range `minInt .. maxInt`.
* `http.Header` is a map from canonical keys to value lists; a missing key
  reads as the empty list, as a Go map does.
* The collaborators whose code is outside the file are parameters (`Env`): the
  token verifier `jwt.ParseWithClaims` with the process secret, and the two
  JSON body decoders.
* A handler run is a pure function from the request and the storage state to
  an `Outcome`: the response written, the storage state afterwards and the
  trace of the effects performed, in order.
-/

namespace TicketService

/-! ## Library functions used by the source: `strings`, `strconv`, `fmt` -/

/-- The function `strings.TrimPrefix`: `s` without the leading `pre` when `s`
starts with it, `s` itself otherwise. -/
def stringsTrimPrefix (s pre : String) : String :=
  if pre.data.isPrefixOf s.data then ⟨s.data.drop pre.data.length⟩ else s

/-- The pieces of a character list between the occurrences of `sep`. -/
def splitChars (sep : Char) : List Char → List (List Char)
  | [] => [[]]
  | c :: cs =>
    if c = sep then [] :: splitChars sep cs
    else
      match splitChars sep cs with
      | [] => [[c]]
      | p :: ps => (c :: p) :: ps

/-- The call `strings.Split(s, "/")`: all substrings between slashes; `n`
slashes give `n + 1` pieces, and the empty string gives one empty piece. -/
def stringsSplitSlash (s : String) : List String :=
  (splitChars '/' s.data).map String.mk

/-- Width of the Go `int` type on the 64-bit targets the service is built for. -/
def intSize : Nat := 64

/-- Largest Go `int`. -/
def maxInt : Int := 2 ^ 63 - 1

/-- Smallest Go `int`. -/
def minInt : Int := -(2 ^ 63)

/-- Largest `uint64`. -/
def maxUint64 : Nat := 2 ^ 64 - 1

/-- The values a Go `int` can hold. -/
def isGoInt (n : Int) : Prop := minInt ≤ n ∧ n ≤ maxInt

instance (n : Int) : Decidable (isGoInt n) := by
  unfold isGoInt; exact inferInstance

/-- The test `'0' <= c && c <= '9'`. -/
def isDigit (c : Char) : Bool := decide ('0'.toNat ≤ c.toNat ∧ c.toNat ≤ '9'.toNat)

/-- The digit value `c - '0'` of a decimal digit. -/
def digitVal (c : Char) : Nat := c.toNat - '0'.toNat

/-- The character `'0' + d` of a digit value `d < 10`. -/
def digitChar (d : Nat) : Char := Char.ofNat ('0'.toNat + d)

/-- The digit loop of `fmt` for an unsigned value, `for u >= 10 { ... }`: the
digits of `u` are written in front of `acc`, least significant first taken
off. A 64-bit value has at most 20 digits, which bounds the loop. -/
def fmtUint : Nat → Nat → List Char → List Char
  | 0, _, acc => acc
  | fuel + 1, u, acc =>
    if 10 ≤ u then fmtUint fuel (u / 10) (digitChar (u % 10) :: acc)
    else digitChar u :: acc

/-- The call `fmt.Sprintf("%d", n)` for a Go `int`: a minus sign for a
negative value, then the decimal digits of the magnitude. -/
def sprintfD (n : Int) : String :=
  let digits := fmtUint 20 n.natAbs []
  ⟨if n < 0 then '-' :: digits else digits⟩

/-- The two errors of `strconv`: `ErrSyntax` and `ErrRange`. -/
inductive NumError
  | invalid
  | outOfRange
  deriving DecidableEq, Repr

/-- The fast path loop of `strconv.Atoi`: `n = n*10 + int(ch)` over the
bytes, `none` at the first byte that is not a digit. -/
def atoiFastLoop : List Char → Nat → Option Nat
  | [], n => some n
  | ch :: rest, n =>
    if isDigit ch then atoiFastLoop rest (n * 10 + digitVal ch) else none

/-- The bound `maxUint64/10 + 1` of `strconv.ParseUint` in base 10: from it on
`n * 10` overflows. -/
def parseUintCutoff : Nat := maxUint64 / 10 + 1

/-- The digit loop of `strconv.ParseUint(s, 10, 64)`. A byte that is not a
decimal digit ends it with `(0, ErrSyntax)` (in base 10 a letter is a digit
value of 10 or more and an underscore is not accepted); an overflow ends it
with `(maxUint64, ErrRange)` at the digit where it happens. -/
def parseUintLoop : List Char → Nat → Nat × Option NumError
  | [], n => (n, none)
  | c :: rest, n =>
    if !isDigit c then (0, some NumError.invalid)
    else if parseUintCutoff ≤ n then (maxUint64, some NumError.outOfRange)
    else if maxUint64 < n * 10 + digitVal c then (maxUint64, some NumError.outOfRange)
    else parseUintLoop rest (n * 10 + digitVal c)

/-- The function `strconv.ParseUint(s, 10, 64)`. -/
def parseUint (s : List Char) : Nat × Option NumError :=
  if s.isEmpty then (0, some NumError.invalid) else parseUintLoop s 0

/-- The function `strconv.ParseInt(s, 10, 0)`, value and error. -/
def parseInt (s : List Char) : Int × Option NumError :=
  match s with
  | [] => (0, some NumError.invalid)
  | c0 :: rest =>
    let neg := decide (c0 = '-')
    let body := if c0 = '+' then rest else if c0 = '-' then rest else c0 :: rest
    let (un, err) := parseUint body
    if err = some NumError.invalid then (0, err)
    else
      let cutoff : Nat := 2 ^ (intSize - 1)
      if !neg && decide (cutoff ≤ un) then ((cutoff : Int) - 1, some NumError.outOfRange)
      else if neg && decide (cutoff < un) then (-(cutoff : Int), some NumError.outOfRange)
      else (if neg then -(un : Int) else (un : Int), none)

/-- The function `strconv.Atoi`, value and error: the fast path for a string
of 1 to 18 bytes, `ParseInt(s, 10, 0)` otherwise. -/
def strconvAtoi (s : String) : Int × Option NumError :=
  let sLen := s.utf8ByteSize
  if 0 < sLen ∧ sLen < 19 then
    match s.data with
    | [] => (0, some NumError.invalid)
    | c0 :: rest =>
      let digits := if c0 = '-' ∨ c0 = '+' then rest else c0 :: rest
      if digits.length < 1 then (0, some NumError.invalid)
      else
        match atoiFastLoop digits 0 with
        | none => (0, some NumError.invalid)
        | some n => (if c0 = '-' then -(n : Int) else (n : Int), none)
  else parseInt s.data

/-- The idiom `v, _ := strconv.Atoi(s)` of the source: the value, the error
dropped. -/
def atoi (s : String) : Int := (strconvAtoi s).1

/-! ## Library types: `net/http` -/

/-- The test `validHeaderFieldByte` of `net/textproto`: the token characters
of RFC 7230, letters, digits and the listed punctuation. -/
def validHeaderFieldByte (c : Char) : Bool :=
  c.isAlphanum ||
    [33, 35, 36, 37, 38, 39, 42, 43, 45, 46, 94, 95, 96, 124, 126].contains c.toNat

/-- The rewriting loop of `canonicalMIMEHeaderKey`: upper case for the first
letter and for a letter after a dash, lower case for the others. -/
def canonicalLoop : Bool → List Char → List Char
  | _, [] => []
  | upper, c :: cs =>
    let c1 :=
      if upper && c.isLower then c.toUpper
      else if !upper && c.isUpper then c.toLower
      else c
    c1 :: canonicalLoop (c1 == '-') cs

/-- The function `textproto.CanonicalMIMEHeaderKey`: a key made of token
characters only is put in canonical form, any other key is left as it is. -/
def canonicalMIMEHeaderKey (s : String) : String :=
  if s.data.all validHeaderFieldByte then ⟨canonicalLoop true s.data⟩ else s

/-- The type `http.Header`, a map from keys to value lists; a key that is not
in the map reads as the empty list. -/
abbrev HttpHeader := String → List String

/-- The method `Header.Get`: the first value under the canonical form of
`key`, the empty string when there is none. -/
def HttpHeader.Get (h : HttpHeader) (key : String) : String :=
  (h (canonicalMIMEHeaderKey key)).headD ""

/-- The method `Header.Set`: the values under the canonical form of `key` are
replaced by the single `value`. -/
def HttpHeader.Set (h : HttpHeader) (key value : String) : HttpHeader :=
  fun k => if k = canonicalMIMEHeaderKey key then [value] else h k

/-- The parts of `*http.Request` the service reads. -/
structure Request where
  Method : String
  Path : String
  Header : HttpHeader
  Body : String

/-! ## Data model -/

/-- The struct `Ticket`. -/
structure Ticket where
  ID : Int
  UserID : Int
  Title : String
  Description : String
  Status : String
  deriving DecidableEq, Repr

/-- The field `Data` of the struct `Claims`: the identity carried by a token. -/
structure Claims where
  UserID : Int
  Role : String
  deriving DecidableEq, Repr

/-- A row of table `tickets` as the schema of `createTable` allows it: `id`,
`user_id` and `title` are `NOT NULL`; `description TEXT` and `status
VARCHAR(50) DEFAULT 'open'` may hold `NULL`, written `none`. -/
structure Row where
  ID : Int
  UserID : Int
  Title : String
  Description : Option String
  Status : Option String
  deriving DecidableEq, Repr

/-- The row that stores a ticket: no column is `NULL`. -/
def Row.ofTicket (t : Ticket) : Row :=
  ⟨t.ID, t.UserID, t.Title, some t.Description, some t.Status⟩

/-- The call `Scan(&t.ID, &t.UserID, &t.Title, &t.Description, &t.Status)` on
a row: the columns are converted in order, and a `NULL` cannot be converted
to a Go `string`, which is the error of `database/sql` for that column. -/
def scanRow (row : Row) : Except String Ticket :=
  match row.Description with
  | none =>
    Except.error
      "sql: Scan error on column index 3, name \"description\": converting NULL to string is unsupported"
  | some description =>
    match row.Status with
    | none =>
      Except.error
        "sql: Scan error on column index 4, name \"status\": converting NULL to string is unsupported"
    | some status => Except.ok ⟨row.ID, row.UserID, row.Title, description, status⟩

/-- The loop `for rows.Next() { ... rows.Scan ... tickets = append(tickets, t) }`
of `getAllTickets`: the tickets scanned so far are extended row by row, and
the first row that does not scan ends the loop with its error. -/
def scanRows : List Row → List Ticket → Except String (List Ticket)
  | [], tickets => Except.ok tickets
  | row :: rest, tickets =>
    match scanRow row with
    | Except.error err => Except.error err
    | Except.ok t => scanRows rest (tickets ++ [t])

/-- The order of `ORDER BY id DESC` is total. -/
instance : IsTotal Ticket (fun a b => b.ID ≤ a.ID) := ⟨fun a b => le_total b.ID a.ID⟩

/-- The order of `ORDER BY id DESC` is transitive. -/
instance : IsTrans Ticket (fun a b => b.ID ≤ a.ID) :=
  ⟨fun _ _ _ hab hbc => le_trans hbc hab⟩

/-- What a handler wrote as the response body: the text of `http.Error`
(the message and a newline) or the value given to the JSON encoder. -/
inductive Body
  | text (s : String)
  | ticket (t : Ticket)
  | tickets (ts : List Ticket)
  | object (fields : List (String × String))
  deriving DecidableEq, Repr

/-- The response: status code, `Content-Type` header and body. -/
structure Response where
  Code : Nat
  ContentType : String
  Body : Body
  deriving DecidableEq, Repr

/-- The SQL statements the service sends to the `tickets` table. -/
inductive Stmt
  | insert (userID : Int) (title description : String)
  | selectAll
  | selectByID (id : Int)
  | updateStatus (status : String) (id : Int)
  deriving DecidableEq, Repr

/-- The effects of a handler run that the properties speak about. -/
inductive Effect
  | decodeBody
  | storage (q : Stmt)
  | notifyReporting
  deriving DecidableEq, Repr

/-- The state of the storage collaborator: the rows of table `tickets`, the
last value of the sequence behind `id SERIAL`, and the statements the engine
answers with an error (lost connection, violated column constraint, ...)
together with the error text. -/
structure DB where
  rows : List Row
  lastID : Int
  refuse : Stmt → Option String

/-- The collaborators outside the file: `jwt.ParseWithClaims` with the
process secret (`some claims` exactly when `err == nil && token.Valid`), and
`json.Decoder.Decode` into a `Ticket` and into the status payload (`none`
when it returns an error). -/
structure Env where
  parseWithClaims : String → Option Claims
  decodeTicket : String → Option Ticket
  decodeStatus : String → Option String

/-- The result of a handler run. -/
structure Outcome where
  resp : Response
  db : DB
  trace : List Effect

/-! ## Storage: the four statements on table `tickets` -/

/-- The error of a second row with an `id` already in the table
(`id SERIAL PRIMARY KEY`). -/
def pkeyViolation : String :=
  "pq: duplicate key value violates unique constraint \"tickets_pkey\""

/-- The statement `INSERT INTO tickets (user_id, title, description) VALUES
($1, $2, $3) RETURNING id, status`: the id is the next value of the sequence,
the status the column default `open`. -/
def DB.insert (db : DB) (userID : Int) (title description : String) :
    Except String (Int × String) × DB :=
  match db.refuse (Stmt.insert userID title description) with
  | some e => (Except.error e, db)
  | none =>
    let id := db.lastID + 1
    if db.rows.any (fun t => decide (t.ID = id)) then
      (Except.error pkeyViolation, { db with lastID := id })
    else
      (Except.ok (id, "open"),
        { db with lastID := id, rows := db.rows ++ [⟨id, userID, title, some description, some "open"⟩] })

/-- The statement `SELECT id, user_id, title, description, status FROM tickets
ORDER BY id DESC`: the rows as stored, before any `Scan`. -/
def DB.selectAll (db : DB) : Except String (List Row) :=
  match db.refuse Stmt.selectAll with
  | some e => Except.error e
  | none => Except.ok (db.rows.insertionSort (fun a b => b.ID ≤ a.ID))

/-- The statement `SELECT ... FROM tickets WHERE id = $1` of `QueryRow`: the
row as stored, before the `Scan`; `ok none` stands for `sql.ErrNoRows`. -/
def DB.selectByID (db : DB) (id : Int) : Except String (Option Row) :=
  match db.refuse (Stmt.selectByID id) with
  | some e => Except.error e
  | none => Except.ok (db.rows.find? (fun t => decide (t.ID = id)))

/-- The statement `UPDATE tickets SET status = $1 WHERE id = $2`: the number
of rows matched and the table afterwards. -/
def DB.updateStatus (db : DB) (status : String) (id : Int) : Except String Nat × DB :=
  match db.refuse (Stmt.updateStatus status id) with
  | some e => (Except.error e, db)
  | none =>
    (Except.ok (db.rows.countP (fun t => decide (t.ID = id))),
      { db with
        rows := db.rows.map (fun t => if t.ID = id then { t with Status := some status } else t) })

/-! ## The handlers of `main.go` -/

/-- The call `http.Error(w, msg, code)` followed by `return`: a plain-text
response of `msg` and a newline. -/
def httpError (msg : String) (code : Nat) (db : DB) (trace : List Effect) : Outcome :=
  ⟨⟨code, "text/plain; charset=utf-8", Body.text (msg ++ "\n")⟩, db, trace⟩

/-- A JSON response: the dispatcher sets `Content-Type: application/json`
before any operation runs. -/
def jsonResponse (code : Nat) (body : Body) (db : DB) (trace : List Effect) : Outcome :=
  ⟨⟨code, "application/json", body⟩, db, trace⟩

/-- The function `authMiddleware`. -/
def authMiddleware (env : Env) (next : Request → DB → Outcome) (r : Request) (db : DB) :
    Outcome :=
  let authHeader := r.Header.Get "Authorization"
  if authHeader = "" then
    httpError "\x7b\"error\": \"Authorization header required\"\x7d" 401 db []
  else
    let tokenString := stringsTrimPrefix authHeader "Bearer "
    match env.parseWithClaims tokenString with
    | none => httpError "\x7b\"error\": \"Invalid or expired token\"\x7d" 401 db []
    | some claims =>
      let h1 := r.Header.Set "X-User-ID" (sprintfD claims.UserID)
      let h2 := h1.Set "X-User-Role" claims.Role
      next { r with Header := h2 } db

/-- The function `createTicket`. -/
def createTicket (env : Env) (r : Request) (db : DB) : Outcome :=
  match env.decodeTicket r.Body with
  | none =>
    httpError "\x7b\"error\": \"Invalid request body\"\x7d" 400 db [Effect.decodeBody]
  | some t =>
    let userID := atoi (r.Header.Get "X-User-ID")
    let t := { t with UserID := userID }
    let q := Stmt.insert t.UserID t.Title t.Description
    match db.insert t.UserID t.Title t.Description with
    | (Except.error err, db1) =>
      httpError ("\x7b\"error\": \"Failed to create ticket: " ++ err ++ "\"\x7d") 500 db1
        [Effect.decodeBody, Effect.storage q]
    | (Except.ok (id, status), db1) =>
      jsonResponse 201 (Body.ticket { t with ID := id, Status := status }) db1
        [Effect.decodeBody, Effect.storage q, Effect.notifyReporting]

/-- The function `getAllTickets`: the query, then the scan loop, each with
its own 500 exit, then the encoded list. -/
def getAllTickets (db : DB) : Outcome :=
  match db.selectAll with
  | Except.error err =>
    httpError ("\x7b\"error\": \"Query error: " ++ err ++ "\"\x7d") 500 db
      [Effect.storage Stmt.selectAll]
  | Except.ok rows =>
    match scanRows rows [] with
    | Except.error err =>
      httpError ("\x7b\"error\": \"Scan error: " ++ err ++ "\"\x7d") 500 db
        [Effect.storage Stmt.selectAll]
    | Except.ok tickets =>
      jsonResponse 200 (Body.tickets tickets) db [Effect.storage Stmt.selectAll]

/-- The function `getTicket`: `QueryRow(...).Scan` gives `sql.ErrNoRows` for
no row (404) and any other error, the one of the query or the one of the
scan, is answered 500. -/
def getTicket (db : DB) (id : Int) : Outcome :=
  match db.selectByID id with
  | Except.ok none =>
    httpError "\x7b\"error\": \"Ticket not found\"\x7d" 404 db
      [Effect.storage (Stmt.selectByID id)]
  | Except.error err =>
    httpError ("\x7b\"error\": \"Query error: " ++ err ++ "\"\x7d") 500 db
      [Effect.storage (Stmt.selectByID id)]
  | Except.ok (some row) =>
    match scanRow row with
    | Except.error err =>
      httpError ("\x7b\"error\": \"Query error: " ++ err ++ "\"\x7d") 500 db
        [Effect.storage (Stmt.selectByID id)]
    | Except.ok t =>
      jsonResponse 200 (Body.ticket t) db [Effect.storage (Stmt.selectByID id)]

/-- The slice `validStatuses` of `updateTicketStatus`. -/
def validStatuses : List String := ["open", "in_progress", "closed"]

/-- The function `updateTicketStatus`. -/
def updateTicketStatus (env : Env) (r : Request) (db : DB) (id : Int) : Outcome :=
  match env.decodeStatus r.Body with
  | none =>
    httpError "\x7b\"error\": \"Invalid request body\"\x7d" 400 db [Effect.decodeBody]
  | some status =>
    let isValidStatus := validStatuses.any (fun s => decide (s = status))
    if !isValidStatus then
      httpError
        "\x7b\"error\": \"Invalid status. Must be one of: open, in_progress, closed\"\x7d"
        400 db [Effect.decodeBody]
    else
      let q := Stmt.updateStatus status id
      match db.updateStatus status id with
      | (Except.error err, db1) =>
        httpError ("\x7b\"error\": \"Failed to update ticket: " ++ err ++ "\"\x7d") 500 db1
          [Effect.decodeBody, Effect.storage q]
      | (Except.ok rowsAffected, db1) =>
        if rowsAffected = 0 then
          httpError "\x7b\"error\": \"Ticket not found\"\x7d" 404 db1
            [Effect.decodeBody, Effect.storage q]
        else
          jsonResponse 200 (Body.object [("message", "Ticket status updated successfully")])
            db1 [Effect.decodeBody, Effect.storage q]

/-- The element `pathParts[2]`, read only where the source has checked
`len(pathParts) >= 3`. -/
def pathPart2 (pathParts : List String) : String := pathParts.getD 2 ""

/-- The handler that `handleTickets` wraps in `authMiddleware`: the switch
on the method. -/
def dispatch (env : Env) (r : Request) (db : DB) : Outcome :=
  let pathParts := stringsSplitSlash r.Path
  let userRole := r.Header.Get "X-User-Role"
  if r.Method = "GET" then
    if 3 ≤ pathParts.length ∧ pathPart2 pathParts ≠ "" then
      getTicket db (atoi (pathPart2 pathParts))
    else if userRole ≠ "admin" then
      httpError "\x7b\"error\": \"Forbidden: Admin access required\"\x7d" 403 db []
    else getAllTickets db
  else if r.Method = "POST" then createTicket env r db
  else if r.Method = "PUT" then
    if pathParts.length < 3 ∨ pathPart2 pathParts = "" then
      httpError "\x7b\"error\": \"Ticket ID is required\"\x7d" 400 db []
    else if userRole ≠ "admin" then
      httpError "\x7b\"error\": \"Forbidden: Admin access required\"\x7d" 403 db []
    else updateTicketStatus env r db (atoi (pathPart2 pathParts))
  else httpError "\x7b\"error\": \"Method not allowed\"\x7d" 405 db []

/-- The function `handleTickets`. -/
def handleTickets (env : Env) (r : Request) (db : DB) : Outcome :=
  authMiddleware env (dispatch env) r db

/-- The `tokenString` that `authMiddleware` hands to the verifier. -/
def bearerToken (r : Request) : String :=
  stringsTrimPrefix (r.Header.Get "Authorization") "Bearer "

/-- The request that `authMiddleware` passes on: the two identity headers
set from the verified claims. -/
def withIdentity (r : Request) (claims : Claims) : Request :=
  { r with
    Header := (r.Header.Set "X-User-ID" (sprintfD claims.UserID)).Set "X-User-Role" claims.Role }

/-! ## A concrete deployment, used to run the handlers -/

/-- A verifier that knows two tokens: one of the admin with id 1, one of the
user with id 7. -/
def demoVerifier (token : String) : Option Claims :=
  if token = "admin-token" then some ⟨1, "admin"⟩
  else if token = "user-token" then some ⟨7, "user"⟩
  else none

/-- A ticket decoder for a few bodies; the second body names a `user_id`. -/
def demoDecodeTicket (body : String) : Option Ticket :=
  if body = "t,d" then some ⟨0, 0, "t", "d", ""⟩
  else if body = "t,d,user_id=99" then some ⟨0, 99, "t", "d", ""⟩
  else none

/-- A status decoder: a body that starts with `status=` carries the rest as
the status, the body `-` is an object without the field. -/
def demoDecodeStatus (body : String) : Option String :=
  if "status=".data.isPrefixOf body.data then some (stringsTrimPrefix body "status=")
  else if body = "-" then some ""
  else none

/-- The collaborators of the concrete deployment. -/
def demoEnv : Env := ⟨demoVerifier, demoDecodeTicket, demoDecodeStatus⟩

/-- A table of three tickets, stored out of order, on a healthy engine. -/
def demoDB : DB :=
  ⟨[⟨2, 7, "b", some "y", some "closed"⟩, ⟨3, 1, "c", some "z", some "open"⟩,
      ⟨1, 7, "a", some "x", some "open"⟩], 3,
    fun _ => none⟩

/-- The three tickets that `demoDB` stores. -/
def demoTickets : List Ticket :=
  [⟨2, 7, "b", "y", "closed"⟩, ⟨3, 1, "c", "z", "open"⟩, ⟨1, 7, "a", "x", "open"⟩]

/-- The table of `demoDB` with one more row, whose description is `NULL`. -/
def nullRowDB : DB :=
  { demoDB with rows := demoDB.rows ++ [⟨4, 7, "d", none, some "open"⟩] }

/-- A request with the given method, path, `Authorization` value and body. -/
def mkRequest (method path auth body : String) : Request :=
  ⟨method, path, fun k => if k = "Authorization" then [auth] else [], body⟩

/-- A request of user 7 that also sends the two identity headers itself,
claiming to be the admin with id 1. -/
def spoofedRequest (method path body : String) : Request :=
  ⟨method, path,
    fun k =>
      if k = "Authorization" then ["Bearer user-token"]
      else if k = "X-User-Role" then ["admin"]
      else if k = "X-User-Id" then ["1"]
      else [],
    body⟩

/-! ## Decimal round trip: `strconv.Atoi` after `fmt.Sprintf("%d", ·)` -/

theorem digitChar_isDigit : ∀ d, d < 10 → isDigit (digitChar d) = true := by decide

theorem digitChar_val : ∀ d, d < 10 → digitVal (digitChar d) = d := by decide

theorem isDigit_ne_sign (c : Char) (h : isDigit c = true) : c ≠ '-' ∧ c ≠ '+' := by
  constructor <;> (rintro rfl; revert h; decide)

/-- With fuel left, the formatted digits start with a digit. -/
theorem fmtUint_head (fuel u : Nat) (acc : List Char) :
    ∃ c rest, fmtUint (fuel + 1) u acc = c :: rest ∧ isDigit c = true := by
  induction fuel generalizing u acc with
  | zero =>
    unfold fmtUint
    split
    · exact ⟨digitChar (u % 10), acc, rfl, digitChar_isDigit _ (Nat.mod_lt _ (by decide))⟩
    · exact ⟨_, _, rfl, digitChar_isDigit _ (by omega)⟩
  | succ k ih =>
    unfold fmtUint
    split
    · exact ih _ _
    · exact ⟨_, _, rfl, digitChar_isDigit _ (by omega)⟩

/-- The fast loop of `Atoi` reads back what `fmtUint` wrote. -/
theorem atoiFastLoop_fmtUint (fuel u : Nat) (acc : List Char) (h : u < 10 ^ fuel) :
    atoiFastLoop (fmtUint fuel u acc) 0 = atoiFastLoop acc u := by
  induction fuel generalizing u acc with
  | zero =>
    have : u = 0 := by simpa using h
    subst this; rfl
  | succ k ih =>
    unfold fmtUint
    split
    · rw [ih (u / 10) _ (by rw [pow_succ] at h; omega)]
      simp only [atoiFastLoop, digitChar_isDigit _ (Nat.mod_lt u (by decide : 0 < 10)),
        digitChar_val _ (Nat.mod_lt u (by decide : 0 < 10)), if_true]
      congr 1; omega
    · have hu : u < 10 := by omega
      simp only [atoiFastLoop, digitChar_isDigit _ hu, digitChar_val _ hu, if_true]
      congr 1; omega

/-- The loop of `ParseUint` reads back what `fmtUint` wrote, for a value that
fits 64 bits. -/
theorem parseUintLoop_fmtUint (fuel u : Nat) (acc : List Char) (h : u < 10 ^ fuel)
    (hu : u ≤ maxUint64) :
    parseUintLoop (fmtUint fuel u acc) 0 = parseUintLoop acc u := by
  induction fuel generalizing u acc with
  | zero =>
    have : u = 0 := by simpa using h
    subst this; rfl
  | succ k ih =>
    have hmax : maxUint64 = 18446744073709551615 := by decide
    have hcut : parseUintCutoff = 1844674407370955162 := by decide
    unfold fmtUint
    split
    · rw [ih (u / 10) _ (by rw [pow_succ] at h; omega) (by omega)]
      have hd := Nat.mod_lt u (by decide : 0 < 10)
      have e : u / 10 * 10 + u % 10 = u := by omega
      simp only [parseUintLoop, digitChar_isDigit _ hd, digitChar_val _ hd, e]
      rw [if_neg (by simp), if_neg (by omega), if_neg (by omega)]
    · have hu10 : u < 10 := by omega
      simp only [parseUintLoop, digitChar_isDigit _ hu10, digitChar_val _ hu10]
      rw [if_neg (by simp), if_neg (by omega), if_neg (by omega)]
      congr 1; omega

/-- The fast path of `Atoi` on a sign-free digit string. -/
theorem strconvAtoi_fast_pos (c : Char) (rest : List Char) (u : Nat)
    (hc : isDigit c = true) (h : atoiFastLoop (c :: rest) 0 = some u)
    (hlen : 0 < (String.mk (c :: rest)).utf8ByteSize ∧ (String.mk (c :: rest)).utf8ByteSize < 19) :
    strconvAtoi ⟨c :: rest⟩ = ((u : Int), none) := by
  obtain ⟨hc1, hc2⟩ := isDigit_ne_sign c hc
  unfold strconvAtoi
  simp only [hlen, and_self, if_true, hc1, hc2, or_self, if_false, List.length_cons, h]
  rw [if_neg (by omega)]

/-- The fast path of `Atoi` on a minus sign and a digit string. -/
theorem strconvAtoi_fast_neg (c : Char) (rest : List Char) (u : Nat)
    (h : atoiFastLoop (c :: rest) 0 = some u)
    (hlen : 0 < (String.mk ('-' :: c :: rest)).utf8ByteSize ∧
      (String.mk ('-' :: c :: rest)).utf8ByteSize < 19) :
    strconvAtoi ⟨'-' :: c :: rest⟩ = (-(u : Int), none) := by
  unfold strconvAtoi
  simp only [hlen, and_self, if_true, true_or, List.length_cons, h]
  rw [if_neg (by omega)]

/-- The function `ParseInt` on a sign-free digit string below `2^63`. -/
theorem parseInt_pos (c : Char) (rest : List Char) (u : Nat)
    (hc : isDigit c = true) (h : parseUintLoop (c :: rest) 0 = (u, none))
    (hu : u < 2 ^ 63) :
    parseInt (c :: rest) = ((u : Int), none) := by
  obtain ⟨hc1, hc2⟩ := isDigit_ne_sign c hc
  have h63 : ¬ (2 ^ (intSize - 1) ≤ u) := by
    have : intSize - 1 = 63 := by decide
    rw [this]; omega
  simp [parseInt, parseUint, hc1, hc2, h, h63]

/-- The function `ParseInt` on a minus sign and a digit string up to `2^63`. -/
theorem parseInt_neg (c : Char) (rest : List Char) (u : Nat)
    (h : parseUintLoop (c :: rest) 0 = (u, none)) (hu : u ≤ 2 ^ 63) :
    parseInt ('-' :: c :: rest) = (-(u : Int), none) := by
  have h63 : ¬ (2 ^ (intSize - 1) < u) := by
    have : intSize - 1 = 63 := by decide
    rw [this]; omega
  have hne : ¬ ('-' = '+') := by decide
  simp [parseInt, parseUint, hne, h, h63]

/-- Round trip: `strconv.Atoi` applied to `fmt.Sprintf("%d", n)` gives `n`
back, without an error, for every Go `int`. -/
theorem strconvAtoi_sprintfD (n : Int) (hn : isGoInt n) :
    strconvAtoi (sprintfD n) = (n, none) := by
  obtain ⟨hlo, hhi⟩ := hn
  have hmin : minInt = -9223372036854775808 := by decide
  have hmaxI : maxInt = 9223372036854775807 := by decide
  rw [hmin] at hlo; rw [hmaxI] at hhi
  have hbound : n.natAbs < 10 ^ 20 := by omega
  have hu64 : n.natAbs ≤ maxUint64 := by
    have : maxUint64 = 18446744073709551615 := by decide
    omega
  obtain ⟨c, rest, hcr, hc⟩ := fmtUint_head 19 n.natAbs []
  have hfast := atoiFastLoop_fmtUint 20 n.natAbs [] hbound
  have hslow := parseUintLoop_fmtUint 20 n.natAbs [] hbound hu64
  simp only [atoiFastLoop, parseUintLoop] at hfast hslow
  have hds : fmtUint 20 n.natAbs [] = c :: rest := hcr
  rw [hds] at hfast hslow
  unfold sprintfD
  simp only [hds]
  by_cases hneg : n < 0
  · rw [if_pos hneg]
    have hval : -(n.natAbs : Int) = n := by omega
    by_cases hlen : 0 < (String.mk ('-' :: c :: rest)).utf8ByteSize ∧
        (String.mk ('-' :: c :: rest)).utf8ByteSize < 19
    · rw [strconvAtoi_fast_neg c rest _ hfast hlen, hval]
    · unfold strconvAtoi
      simp only [hlen, if_false]
      rw [parseInt_neg c rest _ hslow (by omega), hval]
  · rw [if_neg hneg]
    have hval : (n.natAbs : Int) = n := by omega
    by_cases hlen : 0 < (String.mk (c :: rest)).utf8ByteSize ∧
        (String.mk (c :: rest)).utf8ByteSize < 19
    · rw [strconvAtoi_fast_pos c rest _ hc hfast hlen, hval]
    · unfold strconvAtoi
      simp only [hlen, if_false]
      rw [parseInt_pos c rest _ hc hslow (by omega), hval]

/-- The value read back from a formatted Go `int`. -/
theorem atoi_sprintfD (n : Int) (hn : isGoInt n) : atoi (sprintfD n) = n := by
  unfold atoi; rw [strconvAtoi_sprintfD n hn]

/-! ## Request headers -/

theorem canonical_userID : canonicalMIMEHeaderKey "X-User-ID" = "X-User-Id" := by decide

theorem canonical_userRole : canonicalMIMEHeaderKey "X-User-Role" = "X-User-Role" := by decide

theorem canonical_authorization :
    canonicalMIMEHeaderKey "Authorization" = "Authorization" := by decide

theorem withIdentity_role (r : Request) (c : Claims) :
    (withIdentity r c).Header.Get "X-User-Role" = c.Role := by
  simp [withIdentity, HttpHeader.Get, HttpHeader.Set]

theorem withIdentity_userID (r : Request) (c : Claims) :
    (withIdentity r c).Header.Get "X-User-ID" = sprintfD c.UserID := by
  have h : canonicalMIMEHeaderKey "X-User-ID" ≠ canonicalMIMEHeaderKey "X-User-Role" := by
    decide
  simp [withIdentity, HttpHeader.Get, HttpHeader.Set, h]

/-- Requests that agree on everything but the two identity headers are passed
on as the same request. -/
theorem withIdentity_congr (r1 r2 : Request) (c : Claims)
    (hM : r1.Method = r2.Method) (hP : r1.Path = r2.Path) (hB : r1.Body = r2.Body)
    (hH : ∀ k, k ≠ canonicalMIMEHeaderKey "X-User-ID" →
      k ≠ canonicalMIMEHeaderKey "X-User-Role" → r1.Header k = r2.Header k) :
    withIdentity r1 c = withIdentity r2 c := by
  have hh : (r1.Header.Set "X-User-ID" (sprintfD c.UserID)).Set "X-User-Role" c.Role
      = (r2.Header.Set "X-User-ID" (sprintfD c.UserID)).Set "X-User-Role" c.Role := by
    funext k
    simp only [HttpHeader.Set]
    by_cases h1 : k = canonicalMIMEHeaderKey "X-User-Role"
    · simp [h1]
    · by_cases h2 : k = canonicalMIMEHeaderKey "X-User-ID"
      · simp [h1, h2]
      · simp [h1, h2, hH k h2 h1]
  cases r1; cases r2
  simp only [withIdentity] at *
  simp [hM, hP, hB, hh]

/-- The three branches of `authMiddleware`. -/
theorem authMiddleware_missing (env : Env) (next : Request → DB → Outcome) (r : Request)
    (db : DB) (h : r.Header.Get "Authorization" = "") :
    authMiddleware env next r db
      = httpError "\x7b\"error\": \"Authorization header required\"\x7d" 401 db [] := by
  simp [authMiddleware, h]

theorem authMiddleware_rejected (env : Env) (next : Request → DB → Outcome) (r : Request)
    (db : DB) (h : r.Header.Get "Authorization" ≠ "")
    (hv : env.parseWithClaims (bearerToken r) = none) :
    authMiddleware env next r db
      = httpError "\x7b\"error\": \"Invalid or expired token\"\x7d" 401 db [] := by
  unfold bearerToken at hv
  simp [authMiddleware, h, hv]

theorem authMiddleware_accepted (env : Env) (next : Request → DB → Outcome) (r : Request)
    (db : DB) (c : Claims) (h : r.Header.Get "Authorization" ≠ "")
    (hv : env.parseWithClaims (bearerToken r) = some c) :
    authMiddleware env next r db = next (withIdentity r c) db := by
  unfold bearerToken at hv
  simp [authMiddleware, h, hv, withIdentity]

/-! ## Authentication failures -/

/-- C1: a request to `handleTickets` whose `Authorization` header is absent
or whose token the verifier rejects is answered 401 Unauthorized; no effect is
performed (no body decoding, no storage statement), the storage state is
unchanged, and the answer is the same whichever handler the middleware wraps:
the dispatch handler is not invoked. This holds for every method, path and
body. -/
theorem C1_unauthenticated_is_401 (env : Env) (r : Request) (db : DB)
    (h : r.Header.Get "Authorization" = "" ∨ env.parseWithClaims (bearerToken r) = none) :
    (handleTickets env r db).resp.Code = 401 ∧
    (handleTickets env r db).trace = [] ∧
    (handleTickets env r db).db = db ∧
    ∀ next : Request → DB → Outcome, authMiddleware env next r db = handleTickets env r db := by
  unfold handleTickets
  by_cases h0 : r.Header.Get "Authorization" = ""
  · refine ⟨?_, ?_, ?_, fun next => ?_⟩ <;> simp [authMiddleware_missing _ _ _ _ h0, httpError]
  · have hv : env.parseWithClaims (bearerToken r) = none := by
      rcases h with h | h
      · exact absurd h h0
      · exact h
    refine ⟨?_, ?_, ?_, fun next => ?_⟩ <;>
      simp [authMiddleware_rejected _ _ _ _ h0 hv, httpError]

/-- C1, run on the concrete deployment: a `PUT` with a token the verifier
does not know. -/
theorem C1_unauthenticated_is_401_witness :
    (handleTickets demoEnv (mkRequest "PUT" "/tickets/2" "Bearer forged" "status=closed")
        demoDB).resp.Code = 401 ∧
    (handleTickets demoEnv (mkRequest "PUT" "/tickets/2" "Bearer forged" "status=closed")
        demoDB).trace = [] :=
  have h := C1_unauthenticated_is_401 demoEnv
    (mkRequest "PUT" "/tickets/2" "Bearer forged" "status=closed") demoDB (by decide)
  ⟨h.1, h.2.1⟩

/-- C2, as stated, fails: the header value `admin-token` does not start with
`Bearer `, yet the middleware accepts it and runs the wrapped handler, which
lists the tickets with status 200. -/
theorem C2_counterexample :
    "Bearer ".data.isPrefixOf
        ((mkRequest "GET" "/tickets/" "admin-token" "").Header.Get "Authorization").data = false ∧
    (authMiddleware demoEnv (dispatch demoEnv) (mkRequest "GET" "/tickets/" "admin-token" "")
        demoDB).resp.Code = 200 ∧
    (authMiddleware demoEnv (dispatch demoEnv) (mkRequest "GET" "/tickets/" "admin-token" "")
        demoDB).trace = [Effect.storage Stmt.selectAll] := by
  decide

/-- C2, amended: when the `Authorization` value does not start with `Bearer `,
the whole value is the token. If the value is empty or the verifier rejects
it, `authMiddleware` answers 401 with no effect, whichever the next handler
is; if the verifier accepts it, the next handler runs on the request that
carries the identity of that token. -/
theorem C2_header_without_scheme (env : Env) (next : Request → DB → Outcome) (r : Request)
    (db : DB)
    (hpre : "Bearer ".data.isPrefixOf (r.Header.Get "Authorization").data = false) :
    bearerToken r = r.Header.Get "Authorization" ∧
    (r.Header.Get "Authorization" = "" ∨
        env.parseWithClaims (r.Header.Get "Authorization") = none →
      (authMiddleware env next r db).resp.Code = 401 ∧
      (authMiddleware env next r db).trace = [] ∧
      (authMiddleware env next r db).db = db ∧
      ∀ other : Request → DB → Outcome,
        authMiddleware env other r db = authMiddleware env next r db) ∧
    (∀ c, r.Header.Get "Authorization" ≠ "" →
      env.parseWithClaims (r.Header.Get "Authorization") = some c →
      authMiddleware env next r db = next (withIdentity r c) db) := by
  have htok : bearerToken r = r.Header.Get "Authorization" := by
    simp [bearerToken, stringsTrimPrefix, hpre]
  refine ⟨htok, fun h => ?_, fun c h0 hv => ?_⟩
  · by_cases h0 : r.Header.Get "Authorization" = ""
    · refine ⟨?_, ?_, ?_, fun other => ?_⟩ <;>
        simp [authMiddleware_missing _ _ _ _ h0, httpError]
    · have hv : env.parseWithClaims (bearerToken r) = none := by
        rw [htok]
        rcases h with h | h
        · exact absurd h h0
        · exact h
      refine ⟨?_, ?_, ?_, fun other => ?_⟩ <;>
        simp [authMiddleware_rejected _ _ _ _ h0 hv, httpError]
  · exact authMiddleware_accepted env next r db c h0 (by rw [htok]; exact hv)

/-- C2 amended, run on the concrete deployment: a header without the scheme
that the verifier rejects. -/
theorem C2_header_without_scheme_witness :
    (authMiddleware demoEnv (dispatch demoEnv) (mkRequest "GET" "/tickets/" "Basic abc" "")
        demoDB).resp.Code = 401 ∧
    authMiddleware demoEnv (dispatch demoEnv) (mkRequest "GET" "/tickets/" "admin-token" "")
        demoDB
      = dispatch demoEnv (withIdentity (mkRequest "GET" "/tickets/" "admin-token" "")
          ⟨1, "admin"⟩) demoDB :=
  ⟨((C2_header_without_scheme demoEnv (dispatch demoEnv)
      (mkRequest "GET" "/tickets/" "Basic abc" "") demoDB (by decide)).2.1 (by decide)).1,
    (C2_header_without_scheme demoEnv (dispatch demoEnv)
      (mkRequest "GET" "/tickets/" "admin-token" "") demoDB (by decide)).2.2 ⟨1, "admin"⟩
      (by decide) (by decide)⟩

/-- C9, as stated, fails: a request without the header and a request with a
token the verifier rejects both fail authentication with status 401, but the
two response bodies differ, so the caller can tell the two reasons apart. -/
theorem C9_counterexample :
    (authMiddleware demoEnv (dispatch demoEnv) (mkRequest "GET" "/tickets/" "" "")
        demoDB).resp.Code = 401 ∧
    (authMiddleware demoEnv (dispatch demoEnv) (mkRequest "GET" "/tickets/" "Bearer forged" "")
        demoDB).resp.Code = 401 ∧
    (authMiddleware demoEnv (dispatch demoEnv) (mkRequest "GET" "/tickets/" "" "")
        demoDB).resp.Body ≠
      (authMiddleware demoEnv (dispatch demoEnv) (mkRequest "GET" "/tickets/" "Bearer forged" "")
        demoDB).resp.Body := by
  decide

/-- C9, amended: any two requests that fail authentication get the same
status code 401 and the same content type; when both carry a token that the
verifier rejects (malformed, wrong signature, expired), or when both lack the
header, the whole response is the same. The body for a missing header is
another text than the body for a rejected token. -/
theorem C9_failures_collapse (env : Env) (next1 next2 : Request → DB → Outcome)
    (r1 r2 : Request) (db1 db2 : DB)
    (h1 : r1.Header.Get "Authorization" = "" ∨ env.parseWithClaims (bearerToken r1) = none)
    (h2 : r2.Header.Get "Authorization" = "" ∨ env.parseWithClaims (bearerToken r2) = none) :
    (authMiddleware env next1 r1 db1).resp.Code = 401 ∧
    (authMiddleware env next2 r2 db2).resp.Code = 401 ∧
    (authMiddleware env next1 r1 db1).resp.ContentType
      = (authMiddleware env next2 r2 db2).resp.ContentType ∧
    ((r1.Header.Get "Authorization" = "" ↔ r2.Header.Get "Authorization" = "") →
      (authMiddleware env next1 r1 db1).resp = (authMiddleware env next2 r2 db2).resp) ∧
    (r1.Header.Get "Authorization" = "" → r2.Header.Get "Authorization" ≠ "" →
      (authMiddleware env next1 r1 db1).resp.Body
        ≠ (authMiddleware env next2 r2 db2).resp.Body) := by
  have e1 : ∀ (next : Request → DB → Outcome) (r : Request) (db : DB),
      r.Header.Get "Authorization" = "" →
      (authMiddleware env next r db).resp
        = ⟨401, "text/plain; charset=utf-8",
            Body.text ("\x7b\"error\": \"Authorization header required\"\x7d" ++ "\n")⟩ := by
    intro next r db h0
    rw [authMiddleware_missing _ _ _ _ h0]; rfl
  have e2 : ∀ (next : Request → DB → Outcome) (r : Request) (db : DB),
      r.Header.Get "Authorization" ≠ "" → env.parseWithClaims (bearerToken r) = none →
      (authMiddleware env next r db).resp
        = ⟨401, "text/plain; charset=utf-8",
            Body.text ("\x7b\"error\": \"Invalid or expired token\"\x7d" ++ "\n")⟩ := by
    intro next r db h0 hv
    rw [authMiddleware_rejected _ _ _ _ h0 hv]; rfl
  by_cases a1 : r1.Header.Get "Authorization" = "" <;>
    by_cases a2 : r2.Header.Get "Authorization" = ""
  · rw [e1 _ _ _ a1, e1 _ _ _ a2]
    exact ⟨rfl, rfl, rfl, fun _ => rfl, fun _ h => absurd a2 h⟩
  · have v2 := h2.resolve_left a2
    rw [e1 _ _ _ a1, e2 _ _ _ a2 v2]
    exact ⟨rfl, rfl, rfl, fun h => absurd (h.1 a1) a2, fun _ _ => by decide⟩
  · have v1 := h1.resolve_left a1
    rw [e2 _ _ _ a1 v1, e1 _ _ _ a2]
    exact ⟨rfl, rfl, rfl, fun h => absurd (h.2 a2) a1, fun h => absurd h a1⟩
  · have v1 := h1.resolve_left a1
    have v2 := h2.resolve_left a2
    rw [e2 _ _ _ a1 v1, e2 _ _ _ a2 v2]
    exact ⟨rfl, rfl, rfl, fun _ => rfl, fun h => absurd h a1⟩

/-- C9 amended, run on the concrete deployment: two different rejected
tokens, on different methods, get one and the same response. -/
theorem C9_failures_collapse_witness :
    (authMiddleware demoEnv (dispatch demoEnv) (mkRequest "GET" "/tickets/" "Bearer forged" "")
        demoDB).resp
      = (authMiddleware demoEnv (dispatch demoEnv)
          (mkRequest "POST" "/tickets/" "Bearer expired" "t,d") demoDB).resp :=
  (C9_failures_collapse demoEnv (dispatch demoEnv) (dispatch demoEnv)
    (mkRequest "GET" "/tickets/" "Bearer forged" "")
    (mkRequest "POST" "/tickets/" "Bearer expired" "t,d") demoDB demoDB
    (by decide) (by decide)).2.2.2.1 (by decide)

/-! ## Authenticated requests -/

/-- An authenticated request reaches the dispatcher with the identity of its
token in the two identity headers. -/
theorem handleTickets_accepted (env : Env) (r : Request) (db : DB) (c : Claims)
    (h : r.Header.Get "Authorization" ≠ "")
    (hv : env.parseWithClaims (bearerToken r) = some c) :
    handleTickets env r db = dispatch env (withIdentity r c) db :=
  authMiddleware_accepted env (dispatch env) r db c h hv

/-- The operation `createTicket` behind the middleware: the owner is the
user of the claims. -/
theorem createTicket_withIdentity (env : Env) (r : Request) (db : DB) (c : Claims) (t : Ticket)
    (hint : isGoInt c.UserID) (hd : env.decodeTicket r.Body = some t) :
    createTicket env (withIdentity r c) db =
      match db.insert c.UserID t.Title t.Description with
      | (Except.error err, db1) =>
        httpError ("\x7b\"error\": \"Failed to create ticket: " ++ err ++ "\"\x7d") 500 db1
          [Effect.decodeBody, Effect.storage (Stmt.insert c.UserID t.Title t.Description)]
      | (Except.ok (id, status), db1) =>
        jsonResponse 201 (Body.ticket ⟨id, c.UserID, t.Title, t.Description, status⟩) db1
          [Effect.decodeBody, Effect.storage (Stmt.insert c.UserID t.Title t.Description),
            Effect.notifyReporting] := by
  have hb : (withIdentity r c).Body = r.Body := rfl
  unfold createTicket
  rw [hb, hd]
  simp only [withIdentity_userID, atoi_sprintfD c.UserID hint]

/-- C3: for an authenticated `POST` whose body decodes to a ticket `t`, the
first storage statement is the insert with the `user_id` of the verified
claims and the title and description of the body; no insert with another
`user_id` is issued; a 201 response carries a ticket whose `user_id` is the
one of the claims; and when storage accepts the insert the response is 201
with that ticket. The `user_id` of the body, `t.UserID`, is arbitrary. -/
theorem C3_owner_is_verified_identity (env : Env) (r : Request) (db : DB) (c : Claims)
    (t : Ticket)
    (hauth : r.Header.Get "Authorization" ≠ "")
    (hv : env.parseWithClaims (bearerToken r) = some c)
    (hint : isGoInt c.UserID)
    (hm : r.Method = "POST")
    (hd : env.decodeTicket r.Body = some t) :
    (∃ rest, (handleTickets env r db).trace
      = Effect.decodeBody :: Effect.storage (Stmt.insert c.UserID t.Title t.Description)
          :: rest) ∧
    (∀ u title desc, Effect.storage (Stmt.insert u title desc) ∈ (handleTickets env r db).trace →
      u = c.UserID) ∧
    ((handleTickets env r db).resp.Code = 201 →
      ∃ id status, (handleTickets env r db).resp.Body
        = Body.ticket ⟨id, c.UserID, t.Title, t.Description, status⟩) ∧
    (∀ id status db1, db.insert c.UserID t.Title t.Description = (Except.ok (id, status), db1) →
      (handleTickets env r db).resp
        = ⟨201, "application/json", Body.ticket ⟨id, c.UserID, t.Title, t.Description, status⟩⟩
      ∧ (handleTickets env r db).db = db1) := by
  have hm1 : (withIdentity r c).Method = "POST" := hm
  have hne : ¬ ("POST" = "GET") := by decide
  have key : handleTickets env r db = createTicket env (withIdentity r c) db := by
    rw [handleTickets_accepted env r db c hauth hv]
    unfold dispatch
    simp only [hm1, hne, if_false, if_true]
  rw [key, createTicket_withIdentity env r db c t hint hd]
  rcases hins : db.insert c.UserID t.Title t.Description with ⟨res, db1⟩
  cases res with
  | error err =>
    refine ⟨⟨_, rfl⟩, ?_, ?_, ?_⟩
    · intro u title desc hmem
      simp [httpError] at hmem
      exact hmem.1
    · intro hcode
      simp [httpError] at hcode
    · intro id status db2 h
      simp at h
  | ok v =>
    obtain ⟨id, status⟩ := v
    refine ⟨⟨_, rfl⟩, ?_, ?_, ?_⟩
    · intro u title desc hmem
      simp [jsonResponse] at hmem
      exact hmem.1
    · intro _
      exact ⟨id, status, rfl⟩
    · intro id2 status2 db2 h
      simp only [Prod.mk.injEq, Except.ok.injEq] at h
      obtain ⟨⟨rfl, rfl⟩, rfl⟩ := h
      exact ⟨rfl, rfl⟩

/-- C3, run on the concrete deployment: user 7 posts a body that names
`user_id` 99; the created ticket belongs to user 7. -/
theorem C3_owner_is_verified_identity_witness :
    (handleTickets demoEnv (mkRequest "POST" "/tickets/" "Bearer user-token" "t,d,user_id=99")
        demoDB).resp
      = ⟨201, "application/json", Body.ticket ⟨4, 7, "t", "d", "open"⟩⟩ :=
  ((C3_owner_is_verified_identity demoEnv
      (mkRequest "POST" "/tickets/" "Bearer user-token" "t,d,user_id=99") demoDB ⟨7, "user"⟩
      ⟨0, 99, "t", "d", ""⟩ (by decide) (by decide) (by decide) (by decide) (by decide)).2.2.2
    4 "open"
    { demoDB with lastID := 4, rows := demoDB.rows ++ [⟨4, 7, "t", some "d", some "open"⟩] }
    rfl).1

/-! ## Listing -/

/-- A list in descending id order whose ids are distinct is in strictly
descending id order. -/
theorem strictly_descending_of_nodup (ts : List Ticket)
    (hs : ts.Pairwise (fun a b => b.ID ≤ a.ID)) (hn : (ts.map Ticket.ID).Nodup) :
    ts.Pairwise (fun a b => b.ID < a.ID) := by
  induction ts with
  | nil => exact List.Pairwise.nil
  | cons a l ih =>
    rw [List.pairwise_cons] at hs ⊢
    rw [List.map_cons, List.nodup_cons] at hn
    refine ⟨fun b hb => ?_, ih hs.2 hn.2⟩
    have hle := hs.1 b hb
    have hneq : b.ID ≠ a.ID := fun e => hn.1 (e ▸ List.mem_map_of_mem Ticket.ID hb)
    omega

/-- Sorting the stored rows of tickets by descending id is sorting the
tickets: one step of the insertion. -/
theorem orderedInsert_ofTicket (a : Ticket) (l : List Ticket) :
    List.orderedInsert (fun x y : Row => y.ID ≤ x.ID) (Row.ofTicket a) (l.map Row.ofTicket)
      = (List.orderedInsert (fun x y : Ticket => y.ID ≤ x.ID) a l).map Row.ofTicket := by
  induction l with
  | nil => rfl
  | cons b l ih =>
    simp only [List.map_cons, List.orderedInsert]
    by_cases h : b.ID ≤ a.ID
    · have h1 : (Row.ofTicket b).ID ≤ (Row.ofTicket a).ID := h
      rw [if_pos h, if_pos h1]
      rfl
    · have h1 : ¬ (Row.ofTicket b).ID ≤ (Row.ofTicket a).ID := h
      rw [if_neg h, if_neg h1, ih]
      rfl

/-- Sorting the stored rows of tickets by descending id is sorting the
tickets. -/
theorem insertionSort_ofTicket (l : List Ticket) :
    (l.map Row.ofTicket).insertionSort (fun x y : Row => y.ID ≤ x.ID)
      = (l.insertionSort (fun x y : Ticket => y.ID ≤ x.ID)).map Row.ofTicket := by
  induction l with
  | nil => rfl
  | cons a l ih =>
    simp only [List.map_cons, List.insertionSort, ih, orderedInsert_ofTicket]

/-- The scan loop on rows that store tickets gives those tickets, in the
order of the rows. -/
theorem scanRows_ofTicket (l acc : List Ticket) :
    scanRows (l.map Row.ofTicket) acc = Except.ok (acc ++ l) := by
  induction l generalizing acc with
  | nil => simp [scanRows]
  | cons a l ih =>
    simp only [List.map_cons, scanRows, scanRow, Row.ofTicket]
    rw [show (⟨a.ID, a.UserID, a.Title, a.Description, a.Status⟩ : Ticket) = a from rfl]
    have := ih (acc ++ [a])
    simp only [Row.ofTicket] at this
    rw [this]
    simp

/-- The scan loop ends with an error when a row holds a `NULL`. -/
theorem scanRows_null (rows : List Row) (acc : List Ticket) (row : Row) (hrow : row ∈ rows)
    (hnull : row.Description = none ∨ row.Status = none) :
    ∃ err, scanRows rows acc = Except.error err := by
  induction rows generalizing acc with
  | nil => simp at hrow
  | cons a l ih =>
    unfold scanRows
    cases hscan : scanRow a with
    | error err => exact ⟨err, rfl⟩
    | ok t =>
      rcases List.mem_cons.mp hrow with h | h
      · subst h
        unfold scanRow at hscan
        rcases hnull with h | h <;> simp [h] at hscan
        split at hscan <;> simp at hscan
      · exact ih (acc ++ [t]) h

/-- The scan exit of `getAllTickets`: when the query is answered and a row of
the table holds a `NULL` description or status, the response is 500. -/
theorem getAllTickets_null_row (db : DB) (row : Row) (hok : db.refuse Stmt.selectAll = none)
    (hrow : row ∈ db.rows) (hnull : row.Description = none ∨ row.Status = none) :
    (getAllTickets db).resp.Code = 500 := by
  have hmem : row ∈ db.rows.insertionSort (fun x y : Row => y.ID ≤ x.ID) :=
    (List.perm_insertionSort _ _).mem_iff.mpr hrow
  obtain ⟨err, herr⟩ := scanRows_null _ [] row hmem hnull
  simp [getAllTickets, DB.selectAll, hok, herr, httpError]

/-- The scan exit on the concrete deployment: the admin lists a table with a
`NULL` description and gets 500 with the scan error. -/
theorem getAllTickets_null_row_run :
    (handleTickets demoEnv (mkRequest "GET" "/tickets/" "Bearer admin-token" "")
        nullRowDB).resp
      = ⟨500, "text/plain; charset=utf-8",
          Body.text ("\x7b\"error\": \"Scan error: sql: Scan error on column index 3, name \"description\": converting NULL to string is unsupported\"\x7d\n")⟩ := by
  decide

/-- The rows without a `NULL` are the rows that store tickets. -/
theorem rows_store_tickets_iff (rows : List Row) :
    (∀ row ∈ rows, row.Description ≠ none ∧ row.Status ≠ none) ↔
      ∃ tickets : List Ticket, rows = tickets.map Row.ofTicket := by
  constructor
  · intro h
    induction rows with
    | nil => exact ⟨[], rfl⟩
    | cons a l ih =>
      obtain ⟨ts, hts⟩ := ih (fun row hr => h row (List.mem_cons_of_mem a hr))
      obtain ⟨hd, hs⟩ := h a (List.mem_cons_self a l)
      obtain ⟨id, uid, title, d, st⟩ := a
      cases d with
      | none => exact absurd rfl hd
      | some d =>
        cases st with
        | none => exact absurd rfl hs
        | some st => exact ⟨⟨id, uid, title, d, st⟩ :: ts, by simp [hts, Row.ofTicket]⟩
  · rintro ⟨ts, rfl⟩ row hr
    obtain ⟨t, _, rfl⟩ := List.mem_map.mp hr
    simp [Row.ofTicket]

/-- The service writes no `NULL`: an insert keeps a table of tickets a table
of tickets. -/
theorem insert_keeps_tickets (db : DB) (userID : Int) (title description : String)
    (h : ∀ row ∈ db.rows, row.Description ≠ none ∧ row.Status ≠ none) :
    ∀ row ∈ (db.insert userID title description).2.rows,
      row.Description ≠ none ∧ row.Status ≠ none := by
  unfold DB.insert
  split
  · exact h
  · dsimp only
    split
    · exact h
    · intro row hr
      rcases List.mem_append.mp hr with hr | hr
      · exact h row hr
      · simp only [List.mem_singleton] at hr
        subst hr
        simp

/-- The service writes no `NULL`: a status update keeps a table of tickets a
table of tickets. -/
theorem updateStatus_keeps_tickets (db : DB) (status : String) (id : Int)
    (h : ∀ row ∈ db.rows, row.Description ≠ none ∧ row.Status ≠ none) :
    ∀ row ∈ (db.updateStatus status id).2.rows,
      row.Description ≠ none ∧ row.Status ≠ none := by
  unfold DB.updateStatus
  split
  · exact h
  · intro row hr
    obtain ⟨x, hx, rfl⟩ := List.mem_map.mp hr
    by_cases hid : x.ID = id
    · simp [hid, (h x hx).1]
    · simp [hid, h x hx]

/-- The operation `getAllTickets` on a healthy engine whose table stores the
tickets `tickets`: status 200 and those tickets in descending id order, after
the query and the scan of every row. -/
theorem getAllTickets_of_tickets (db : DB) (tickets : List Ticket)
    (hok : db.refuse Stmt.selectAll = none) (hrows : db.rows = tickets.map Row.ofTicket) :
    getAllTickets db
      = jsonResponse 200
          (Body.tickets (tickets.insertionSort (fun x y : Ticket => y.ID ≤ x.ID))) db
          [Effect.storage Stmt.selectAll] := by
  have hscan := scanRows_ofTicket (tickets.insertionSort (fun x y : Ticket => y.ID ≤ x.ID)) []
  simp only [getAllTickets, DB.selectAll, hok, hrows, insertionSort_ofTicket, hscan,
    List.nil_append]

/-- C4: for an authenticated `GET` on the collection path (the path has no
non-empty third segment): a role other than `admin` gets 403 Forbidden with no
storage statement issued; the role `admin`, on an engine that answers the
query and a table that stores the tickets `tickets` under distinct ids (the
primary key), gets status 200 and exactly those tickets, as many as the table
holds, in strictly descending id order, with the one `SELECT` as the only
effect. A table with a `NULL` description or status stores no ticket in that
row; there the scan exit answers 500 (`getAllTickets_null_row`). -/
theorem C4_list_requires_admin (env : Env) (r : Request) (db : DB) (c : Claims)
    (tickets : List Ticket)
    (hauth : r.Header.Get "Authorization" ≠ "")
    (hv : env.parseWithClaims (bearerToken r) = some c)
    (hm : r.Method = "GET")
    (hcoll : ¬ (3 ≤ (stringsSplitSlash r.Path).length ∧
      pathPart2 (stringsSplitSlash r.Path) ≠ "")) :
    (c.Role ≠ "admin" →
      (handleTickets env r db).resp.Code = 403 ∧
      (handleTickets env r db).trace = [] ∧
      (handleTickets env r db).db = db) ∧
    (c.Role = "admin" → db.refuse Stmt.selectAll = none →
      db.rows = tickets.map Row.ofTicket → (tickets.map Ticket.ID).Nodup →
      ∃ ts, (handleTickets env r db).resp = ⟨200, "application/json", Body.tickets ts⟩ ∧
        ts.Perm tickets ∧ ts.length = tickets.length ∧
        ts.Pairwise (fun a b => b.ID < a.ID) ∧
        (handleTickets env r db).trace = [Effect.storage Stmt.selectAll] ∧
        (handleTickets env r db).db = db) := by
  have hm1 : (withIdentity r c).Method = "GET" := hm
  have hp1 : (withIdentity r c).Path = r.Path := rfl
  rw [handleTickets_accepted env r db c hauth hv]
  unfold dispatch
  simp only [hm1, hp1, hcoll, if_true, if_false, withIdentity_role]
  constructor
  · intro hrole
    simp [hrole, httpError]
  · intro hrole hok hrows hnodup
    have hperm : (tickets.insertionSort (fun x y : Ticket => y.ID ≤ x.ID)).Perm tickets :=
      List.perm_insertionSort _ _
    have hsorted : (tickets.insertionSort (fun x y : Ticket => y.ID ≤ x.ID)).Pairwise
        (fun a b => b.ID ≤ a.ID) :=
      List.sorted_insertionSort _ _
    refine ⟨tickets.insertionSort (fun x y : Ticket => y.ID ≤ x.ID), ?_, hperm,
      hperm.length_eq, ?_, ?_, ?_⟩
    · simp [hrole, getAllTickets_of_tickets db tickets hok hrows, jsonResponse]
    · exact strictly_descending_of_nodup _ hsorted
        ((hperm.map Ticket.ID).nodup_iff.mpr hnodup)
    · simp [hrole, getAllTickets_of_tickets db tickets hok hrows, jsonResponse]
    · simp [hrole, getAllTickets_of_tickets db tickets hok hrows, jsonResponse]

/-- C4, run on the concrete deployment: the admin lists the three tickets,
newest first. -/
theorem C4_list_requires_admin_witness :
    ∃ ts, (handleTickets demoEnv (mkRequest "GET" "/tickets/" "Bearer admin-token" "")
        demoDB).resp = ⟨200, "application/json", Body.tickets ts⟩ ∧
      ts.Perm demoTickets ∧ ts.length = demoTickets.length ∧
      ts.Pairwise (fun a b => b.ID < a.ID) ∧
      (handleTickets demoEnv (mkRequest "GET" "/tickets/" "Bearer admin-token" "")
        demoDB).trace = [Effect.storage Stmt.selectAll] ∧
      (handleTickets demoEnv (mkRequest "GET" "/tickets/" "Bearer admin-token" "")
        demoDB).db = demoDB :=
  (C4_list_requires_admin demoEnv (mkRequest "GET" "/tickets/" "Bearer admin-token" "") demoDB
    ⟨1, "admin"⟩ demoTickets (by decide) (by decide) (by decide) (by decide)).2
    (by decide) (by decide) (by decide) (by decide)

/-! ## Status update -/

/-- An authenticated `PUT` of an admin on a path with an identifier runs
`updateTicketStatus` on the integer read from the identifier. -/
theorem handleTickets_put_admin (env : Env) (r : Request) (db : DB) (c : Claims)
    (hauth : r.Header.Get "Authorization" ≠ "")
    (hv : env.parseWithClaims (bearerToken r) = some c)
    (hm : r.Method = "PUT")
    (hid : 3 ≤ (stringsSplitSlash r.Path).length ∧ pathPart2 (stringsSplitSlash r.Path) ≠ "")
    (hadmin : c.Role = "admin") :
    handleTickets env r db
      = updateTicketStatus env (withIdentity r c) db
          (atoi (pathPart2 (stringsSplitSlash r.Path))) := by
  have hm1 : (withIdentity r c).Method = "PUT" := hm
  have hp1 : (withIdentity r c).Path = r.Path := rfl
  have h1 : ¬ ("PUT" = "GET") := by decide
  have h2 : ¬ ("PUT" = "POST") := by decide
  have h3 : ¬ ((stringsSplitSlash r.Path).length < 3 ∨
      pathPart2 (stringsSplitSlash r.Path) = "") := by
    rintro (h | h)
    · omega
    · exact hid.2 h
  rw [handleTickets_accepted env r db c hauth hv]
  unfold dispatch
  simp only [hm1, hp1, h1, h2, h3, if_true, if_false, withIdentity_role, hadmin, ne_eq,
    not_true_eq_false]

/-- C5: for an authenticated `PUT`, first the identifier, then the role: a
path without a non-empty third segment gets 400 BadRequest for every claims
(admin or not); a path with one gets 403 Forbidden when the role is not
`admin`, for every identifier and body. In both cases no effect is performed
(the body is not decoded, no storage statement is issued) and the storage
state is unchanged. -/
theorem C5_put_checks_in_order (env : Env) (r : Request) (db : DB) (c : Claims)
    (hauth : r.Header.Get "Authorization" ≠ "")
    (hv : env.parseWithClaims (bearerToken r) = some c)
    (hm : r.Method = "PUT") :
    ((stringsSplitSlash r.Path).length < 3 ∨ pathPart2 (stringsSplitSlash r.Path) = "" →
      (handleTickets env r db).resp.Code = 400 ∧
      (handleTickets env r db).trace = [] ∧
      (handleTickets env r db).db = db) ∧
    (3 ≤ (stringsSplitSlash r.Path).length ∧ pathPart2 (stringsSplitSlash r.Path) ≠ "" →
      c.Role ≠ "admin" →
      (handleTickets env r db).resp.Code = 403 ∧
      (handleTickets env r db).trace = [] ∧
      (handleTickets env r db).db = db) := by
  have hm1 : (withIdentity r c).Method = "PUT" := hm
  have hp1 : (withIdentity r c).Path = r.Path := rfl
  have h1 : ¬ ("PUT" = "GET") := by decide
  have h2 : ¬ ("PUT" = "POST") := by decide
  rw [handleTickets_accepted env r db c hauth hv]
  unfold dispatch
  simp only [hm1, hp1, h1, h2, if_true, if_false, withIdentity_role]
  constructor
  · intro hmissing
    rw [if_pos hmissing]
    simp [httpError]
  · intro hid hrole
    have h3 : ¬ ((stringsSplitSlash r.Path).length < 3 ∨
        pathPart2 (stringsSplitSlash r.Path) = "") := by
      rintro (h | h)
      · omega
      · exact hid.2 h
    rw [if_neg h3, if_pos hrole]
    simp [httpError]

/-- C5, run on the concrete deployment: user 7 puts a status on a ticket
that does not exist and is refused for the role. -/
theorem C5_put_checks_in_order_witness :
    (handleTickets demoEnv (mkRequest "PUT" "/tickets/999" "Bearer user-token" "status=closed")
        demoDB).resp.Code = 403 ∧
    (handleTickets demoEnv (mkRequest "PUT" "/tickets/999" "Bearer user-token" "status=closed")
        demoDB).trace = [] ∧
    (handleTickets demoEnv (mkRequest "PUT" "/tickets/999" "Bearer user-token" "status=closed")
        demoDB).db = demoDB :=
  (C5_put_checks_in_order demoEnv
    (mkRequest "PUT" "/tickets/999" "Bearer user-token" "status=closed") demoDB ⟨7, "user"⟩
    (by decide) (by decide) (by decide)).2 (by decide) (by decide)

/-- C6: for a `PUT` of an admin on a path with an identifier whose body
decodes to the status `s`: when `s` is none of `open`, `in_progress`,
`closed` (the empty string of an absent field included), the response is 400
BadRequest, the only effect is the decoding of the body, no storage statement
is issued and the storage state is unchanged, whatever the table holds; when
`s` is one of the three, the update statement for `s` is issued and the
response is not 400. -/
theorem C6_status_validated_before_storage (env : Env) (r : Request) (db : DB) (c : Claims)
    (s : String)
    (hauth : r.Header.Get "Authorization" ≠ "")
    (hv : env.parseWithClaims (bearerToken r) = some c)
    (hm : r.Method = "PUT")
    (hid : 3 ≤ (stringsSplitSlash r.Path).length ∧ pathPart2 (stringsSplitSlash r.Path) ≠ "")
    (hadmin : c.Role = "admin")
    (hd : env.decodeStatus r.Body = some s) :
    (¬ (s = "open" ∨ s = "in_progress" ∨ s = "closed") →
      (handleTickets env r db).resp.Code = 400 ∧
      (handleTickets env r db).trace = [Effect.decodeBody] ∧
      (handleTickets env r db).db = db) ∧
    (s = "open" ∨ s = "in_progress" ∨ s = "closed" →
      (handleTickets env r db).trace
        = [Effect.decodeBody,
            Effect.storage (Stmt.updateStatus s (atoi (pathPart2 (stringsSplitSlash r.Path))))] ∧
      (handleTickets env r db).resp.Code ≠ 400) := by
  have hb : (withIdentity r c).Body = r.Body := rfl
  have hvalid : validStatuses.any (fun v => decide (v = s)) = true ↔
      (s = "open" ∨ s = "in_progress" ∨ s = "closed") := by
    simp only [validStatuses, List.any_cons, List.any_nil, Bool.or_false, Bool.or_eq_true,
      decide_eq_true_eq]
    constructor
    · rintro (h | h | h)
      · exact Or.inl h.symm
      · exact Or.inr (Or.inl h.symm)
      · exact Or.inr (Or.inr h.symm)
    · rintro (h | h | h)
      · exact Or.inl h.symm
      · exact Or.inr (Or.inl h.symm)
      · exact Or.inr (Or.inr h.symm)
  rw [handleTickets_put_admin env r db c hauth hv hm hid hadmin]
  unfold updateTicketStatus
  rw [hb, hd]
  constructor
  · intro hbad
    have : validStatuses.any (fun v => decide (v = s)) = false := by
      rw [← Bool.not_eq_true, hvalid]; exact hbad
    simp [this, httpError]
  · intro hgood
    have : validStatuses.any (fun v => decide (v = s)) = true := hvalid.mpr hgood
    simp only [this, Bool.not_true, Bool.false_eq_true, if_false]
    rcases hup : db.updateStatus s (atoi (pathPart2 (stringsSplitSlash r.Path)))
      with ⟨res, db1⟩
    cases res with
    | error err => simp [httpError]
    | ok n =>
      by_cases hn : n = 0
      · simp [hn, httpError]
      · simp [hn, jsonResponse]

/-- C6, run on the concrete deployment: the admin puts the status `done` on
a ticket that does not exist and is refused for the status. -/
theorem C6_status_validated_before_storage_witness :
    (handleTickets demoEnv (mkRequest "PUT" "/tickets/999" "Bearer admin-token" "status=done")
        demoDB).resp.Code = 400 ∧
    (handleTickets demoEnv (mkRequest "PUT" "/tickets/999" "Bearer admin-token" "status=done")
        demoDB).trace = [Effect.decodeBody] ∧
    (handleTickets demoEnv (mkRequest "PUT" "/tickets/999" "Bearer admin-token" "status=done")
        demoDB).db = demoDB :=
  (C6_status_validated_before_storage demoEnv
    (mkRequest "PUT" "/tickets/999" "Bearer admin-token" "status=done") demoDB ⟨1, "admin"⟩
    "done" (by decide) (by decide) (by decide) (by decide) (by decide) (by decide)).1
    (by decide)

/-- The update of an existing ticket on a healthy engine succeeds and rewrites
the status of the rows with that id, nothing else. -/
theorem updateTicketStatus_existing (env : Env) (r : Request) (db : DB) (t : Row)
    (s : String)
    (hs : s = "open" ∨ s = "in_progress" ∨ s = "closed")
    (hd : env.decodeStatus r.Body = some s)
    (ht : t ∈ db.rows)
    (hok : db.refuse (Stmt.updateStatus s t.ID) = none) :
    updateTicketStatus env r db t.ID
      = jsonResponse 200 (Body.object [("message", "Ticket status updated successfully")])
          { db with
            rows := db.rows.map (fun x => if x.ID = t.ID then { x with Status := some s } else x) }
          [Effect.decodeBody, Effect.storage (Stmt.updateStatus s t.ID)] := by
  have hvalid : validStatuses.any (fun v => decide (v = s)) = true := by
    rcases hs with h | h | h <;> subst h <;> decide
  have hcount : db.rows.countP (fun x => decide (x.ID = t.ID)) ≠ 0 := by
    have : 0 < db.rows.countP (fun x => decide (x.ID = t.ID)) :=
      List.countP_pos_iff.mpr ⟨t, ht, by simp⟩
    omega
  unfold updateTicketStatus
  rw [hd]
  simp only [hvalid, Bool.not_true, Bool.false_eq_true, if_false, DB.updateStatus, hok, hcount]

/-- C8: an admin `PUT` with a valid status `s` on the path of an existing
ticket `t`, issued twice in a row on a healthy engine: both calls answer 200
with the success message; after the first call the table is the old table
with the status of the rows of that id set to `s` (id, user_id, title and
description of every row kept), so the ticket `t` is there with status `s`;
and the storage state after the second call is the state after the first,
whatever the status of `t` was before. -/
theorem C8_status_update_idempotent (env : Env) (r : Request) (db : DB) (c : Claims)
    (t : Row) (s : String)
    (hauth : r.Header.Get "Authorization" ≠ "")
    (hv : env.parseWithClaims (bearerToken r) = some c)
    (hadmin : c.Role = "admin")
    (hm : r.Method = "PUT")
    (hid : 3 ≤ (stringsSplitSlash r.Path).length ∧ pathPart2 (stringsSplitSlash r.Path) ≠ "")
    (hpath : atoi (pathPart2 (stringsSplitSlash r.Path)) = t.ID)
    (ht : t ∈ db.rows)
    (hs : s = "open" ∨ s = "in_progress" ∨ s = "closed")
    (hd : env.decodeStatus r.Body = some s)
    (hok : db.refuse (Stmt.updateStatus s t.ID) = none) :
    (handleTickets env r db).resp
      = ⟨200, "application/json",
          Body.object [("message", "Ticket status updated successfully")]⟩ ∧
    (handleTickets env r (handleTickets env r db).db).resp
      = ⟨200, "application/json",
          Body.object [("message", "Ticket status updated successfully")]⟩ ∧
    (handleTickets env r db).db.rows
      = db.rows.map (fun x => if x.ID = t.ID then { x with Status := some s } else x) ∧
    { t with Status := some s } ∈ (handleTickets env r db).db.rows ∧
    { t with Status := some s } ∈ (handleTickets env r (handleTickets env r db).db).db.rows ∧
    (handleTickets env r (handleTickets env r db).db).db = (handleTickets env r db).db := by
  have hb : (withIdentity r c).Body = r.Body := rfl
  have hmem : ({ t with Status := some s } : Row)
      ∈ db.rows.map (fun x => if x.ID = t.ID then { x with Status := some s } else x) :=
    List.mem_map.mpr ⟨t, ht, by simp⟩
  have step1 : handleTickets env r db
      = jsonResponse 200 (Body.object [("message", "Ticket status updated successfully")])
          { db with
            rows := db.rows.map (fun x => if x.ID = t.ID then { x with Status := some s } else x) }
          [Effect.decodeBody, Effect.storage (Stmt.updateStatus s t.ID)] := by
    rw [handleTickets_put_admin env r db c hauth hv hm hid hadmin, hpath]
    exact updateTicketStatus_existing env (withIdentity r c) db t s hs (hb ▸ hd) ht hok
  have hidem : (db.rows.map (fun x => if x.ID = t.ID then { x with Status := some s } else x)).map
      (fun x => if x.ID = t.ID then { x with Status := some s } else x)
      = db.rows.map (fun x => if x.ID = t.ID then { x with Status := some s } else x) := by
    rw [List.map_map]
    apply List.map_congr_left
    intro x _
    by_cases hx : x.ID = t.ID <;> simp [hx]
  have step2 : handleTickets env r
        { db with
          rows := db.rows.map (fun x => if x.ID = t.ID then { x with Status := some s } else x) }
      = jsonResponse 200 (Body.object [("message", "Ticket status updated successfully")])
          { db with
            rows := db.rows.map (fun x => if x.ID = t.ID then { x with Status := some s } else x) }
          [Effect.decodeBody, Effect.storage (Stmt.updateStatus s t.ID)] := by
    rw [handleTickets_put_admin env r _ c hauth hv hm hid hadmin, hpath]
    have h2 := updateTicketStatus_existing env (withIdentity r c)
      { db with
        rows := db.rows.map (fun x => if x.ID = t.ID then { x with Status := some s } else x) }
      { t with Status := some s } s hs (hb ▸ hd) hmem hok
    simp only [hidem] at h2
    exact h2
  rw [step1]
  simp only [jsonResponse]
  rw [step2]
  simp only [jsonResponse]
  exact ⟨trivial, trivial, trivial, hmem, hmem, trivial⟩

/-- C8, run on the concrete deployment: the admin reopens the closed ticket 2
twice. -/
theorem C8_status_update_idempotent_witness :
    (handleTickets demoEnv (mkRequest "PUT" "/tickets/2" "Bearer admin-token" "status=open")
        demoDB).resp
      = ⟨200, "application/json",
          Body.object [("message", "Ticket status updated successfully")]⟩ ∧
    (handleTickets demoEnv (mkRequest "PUT" "/tickets/2" "Bearer admin-token" "status=open")
        (handleTickets demoEnv
          (mkRequest "PUT" "/tickets/2" "Bearer admin-token" "status=open") demoDB).db).db
      = (handleTickets demoEnv (mkRequest "PUT" "/tickets/2" "Bearer admin-token" "status=open")
          demoDB).db :=
  have h := C8_status_update_idempotent demoEnv
    (mkRequest "PUT" "/tickets/2" "Bearer admin-token" "status=open") demoDB ⟨1, "admin"⟩
    ⟨2, 7, "b", some "y", some "closed"⟩ "open" (by decide) (by decide) (by decide) (by decide)
    (by decide) (by decide) (by decide) (by decide) (by decide) (by decide)
  ⟨h.1, h.2.2.2.2.2⟩

/-! ## The dispatch table -/

/-- C7, as stated, fails: a `POST` whose path carries the identifier segment
`5` is not answered 405; it creates a ticket, status 201. -/
theorem C7_counterexample :
    (3 ≤ (stringsSplitSlash "/tickets/5").length ∧
      pathPart2 (stringsSplitSlash "/tickets/5") ≠ "") ∧
    (handleTickets demoEnv (mkRequest "POST" "/tickets/5" "Bearer user-token" "t,d")
        demoDB).resp
      = ⟨201, "application/json", Body.ticket ⟨4, 7, "t", "d", "open"⟩⟩ ∧
    (handleTickets demoEnv (mkRequest "POST" "/tickets/5" "Bearer user-token" "t,d")
        demoDB).trace
      = [Effect.decodeBody, Effect.storage (Stmt.insert 7 "t" "d"), Effect.notifyReporting] ∧
    (handleTickets demoEnv (mkRequest "POST" "/tickets/5" "Bearer user-token" "t,d")
        demoDB).db.rows
      = demoDB.rows ++ [⟨4, 7, "t", some "d", some "open"⟩] := by
  decide

/-- C7, amended: an authenticated request whose method is none of `GET`,
`POST`, `PUT` is answered 405 MethodNotAllowed with no effect and the storage
state unchanged, whatever its path; and an authenticated `POST` runs the
create operation whatever its path: the outcome on any path is the outcome
on any other path. -/
theorem C7_dispatch_by_method (env : Env) (r : Request) (db : DB) (c : Claims)
    (hauth : r.Header.Get "Authorization" ≠ "")
    (hv : env.parseWithClaims (bearerToken r) = some c) :
    (r.Method ≠ "GET" → r.Method ≠ "POST" → r.Method ≠ "PUT" →
      (handleTickets env r db).resp.Code = 405 ∧
      (handleTickets env r db).trace = [] ∧
      (handleTickets env r db).db = db) ∧
    (r.Method = "POST" →
      handleTickets env r db = createTicket env (withIdentity r c) db ∧
      ∀ path, handleTickets env { r with Path := path } db = handleTickets env r db) := by
  constructor
  · intro h1 h2 h3
    have g1 : ¬ ((withIdentity r c).Method = "GET") := h1
    have g2 : ¬ ((withIdentity r c).Method = "POST") := h2
    have g3 : ¬ ((withIdentity r c).Method = "PUT") := h3
    rw [handleTickets_accepted env r db c hauth hv]
    unfold dispatch
    simp [g1, g2, g3, httpError]
  · intro hm
    have hne : ¬ ("POST" = "GET") := by decide
    have key : ∀ path, handleTickets env { r with Path := path } db
        = createTicket env (withIdentity r c) db := by
      intro path
      have hm1 : (withIdentity { r with Path := path } c).Method = "POST" := hm
      rw [handleTickets_accepted env { r with Path := path } db c hauth hv]
      unfold dispatch
      simp only [hm1, hne, if_false, if_true]
      rfl
    have h0 := key r.Path
    have hr : ({ r with Path := r.Path } : Request) = r := by cases r; rfl
    rw [hr] at h0
    exact ⟨h0, fun path => by rw [key path, h0]⟩

/-- C7 amended, run on the concrete deployment: a `DELETE` of the admin. -/
theorem C7_dispatch_by_method_witness :
    (handleTickets demoEnv (mkRequest "DELETE" "/tickets/2" "Bearer admin-token" "")
        demoDB).resp.Code = 405 ∧
    (handleTickets demoEnv (mkRequest "DELETE" "/tickets/2" "Bearer admin-token" "")
        demoDB).trace = [] ∧
    (handleTickets demoEnv (mkRequest "DELETE" "/tickets/2" "Bearer admin-token" "")
        demoDB).db = demoDB :=
  (C7_dispatch_by_method demoEnv (mkRequest "DELETE" "/tickets/2" "Bearer admin-token" "")
    demoDB ⟨1, "admin"⟩ (by decide) (by decide)).1 (by decide) (by decide) (by decide)

/-! ## Identity headers sent by the client -/

/-- C10: two requests that differ only in what they carry under the keys of
`X-User-ID` and `X-User-Role` have the same outcome from `handleTickets` on
the same storage state: the same response, the same storage state afterwards
and the same effects. And when the verifier accepts the token, the wrapped
handler runs on a request with the method, path and body received, in which
`X-User-Role` reads as the role of the claims and `X-User-ID`, read with
`Atoi` as `createTicket` does, gives the user id of the claims. -/
theorem C10_client_identity_headers_ignored (env : Env) (r1 r2 : Request) (db : DB)
    (hM : r1.Method = r2.Method) (hP : r1.Path = r2.Path) (hB : r1.Body = r2.Body)
    (hH : ∀ k, k ≠ canonicalMIMEHeaderKey "X-User-ID" →
      k ≠ canonicalMIMEHeaderKey "X-User-Role" → r1.Header k = r2.Header k) :
    handleTickets env r1 db = handleTickets env r2 db ∧
    (∀ c, r1.Header.Get "Authorization" ≠ "" → env.parseWithClaims (bearerToken r1) = some c →
      isGoInt c.UserID →
      ∃ seen : Request,
        (∀ next : Request → DB → Outcome, authMiddleware env next r1 db = next seen db) ∧
        seen.Method = r1.Method ∧ seen.Path = r1.Path ∧ seen.Body = r1.Body ∧
        seen.Header.Get "X-User-Role" = c.Role ∧
        atoi (seen.Header.Get "X-User-ID") = c.UserID) := by
  have hA : r1.Header.Get "Authorization" = r2.Header.Get "Authorization" := by
    have := hH (canonicalMIMEHeaderKey "Authorization") (by decide) (by decide)
    simp only [HttpHeader.Get, this]
  have hT : bearerToken r1 = bearerToken r2 := by simp only [bearerToken, hA]
  constructor
  · unfold handleTickets
    by_cases h0 : r1.Header.Get "Authorization" = ""
    · rw [authMiddleware_missing _ _ _ _ h0, authMiddleware_missing _ _ _ _ (hA ▸ h0)]
    · cases hv : env.parseWithClaims (bearerToken r1) with
      | none =>
        rw [authMiddleware_rejected _ _ _ _ h0 hv,
          authMiddleware_rejected _ _ _ _ (hA ▸ h0) (hT ▸ hv)]
      | some c =>
        rw [authMiddleware_accepted _ _ _ _ c h0 hv,
          authMiddleware_accepted _ _ _ _ c (hA ▸ h0) (hT ▸ hv),
          withIdentity_congr r1 r2 c hM hP hB hH]
  · intro c h0 hv hint
    refine ⟨withIdentity r1 c, fun next => authMiddleware_accepted env next r1 db c h0 hv,
      rfl, rfl, rfl, withIdentity_role r1 c, ?_⟩
    rw [withIdentity_userID, atoi_sprintfD c.UserID hint]

/-- C10, run on the concrete deployment: user 7 asks for the list and sends
`X-User-Role: admin` and `X-User-Id: 1` along; the outcome is the one of the
same request without the two headers, 403 Forbidden. -/
theorem C10_client_identity_headers_ignored_witness :
    handleTickets demoEnv (spoofedRequest "GET" "/tickets/" "") demoDB
      = handleTickets demoEnv (mkRequest "GET" "/tickets/" "Bearer user-token" "") demoDB ∧
    (handleTickets demoEnv (spoofedRequest "GET" "/tickets/" "") demoDB).resp.Code = 403 :=
  ⟨(C10_client_identity_headers_ignored demoEnv (spoofedRequest "GET" "/tickets/" "")
      (mkRequest "GET" "/tickets/" "Bearer user-token" "") demoDB rfl rfl rfl
      (fun k h1 h2 => by
        rw [canonical_userID] at h1
        rw [canonical_userRole] at h2
        simp [spoofedRequest, mkRequest, h1, h2])).1,
    by decide⟩

/-! ## Supporting facts: the storage invariant and the path of a ticket -/

/-- The primary key is kept by an insert: distinct ids stay distinct. -/
theorem insert_keeps_ids_distinct (db : DB) (userID : Int) (title description : String)
    (h : (db.rows.map Row.ID).Nodup) :
    ((db.insert userID title description).2.rows.map Row.ID).Nodup := by
  unfold DB.insert
  split
  · exact h
  · dsimp only
    split
    · exact h
    · rename_i hfresh
      simp only [List.map_append, List.map_cons, List.map_nil]
      rw [List.nodup_append]
      refine ⟨h, List.nodup_singleton _, ?_⟩
      intro a ha hb
      simp only [List.mem_singleton] at hb
      subst hb
      apply hfresh
      obtain ⟨t, ht, hid⟩ := List.mem_map.mp ha
      exact List.any_eq_true.mpr ⟨t, ht, by simpa using hid⟩

/-- A status update changes no id. -/
theorem updateStatus_keeps_ids (db : DB) (status : String) (id : Int) :
    (db.updateStatus status id).2.rows.map Row.ID = db.rows.map Row.ID := by
  unfold DB.updateStatus
  split
  · rfl
  · simp only [List.map_map]
    apply List.map_congr_left
    intro x _
    by_cases hx : x.ID = id <;> simp [hx]

/-- A list without the separator is one piece. -/
theorem splitChars_no_sep (sep : Char) (l : List Char) (h : ∀ c ∈ l, c ≠ sep) :
    splitChars sep l = [l] := by
  induction l with
  | nil => rfl
  | cons a l ih =>
    have ha : a ≠ sep := h a (List.mem_cons_self a l)
    have hl := ih (fun c hc => h c (List.mem_cons_of_mem a hc))
    simp [splitChars, ha, hl]

/-- A piece without the separator, then the separator: the piece is split
off. -/
theorem splitChars_piece (sep : Char) (pre rest : List Char) (h : ∀ c ∈ pre, c ≠ sep) :
    splitChars sep (pre ++ sep :: rest) = pre :: splitChars sep rest := by
  induction pre with
  | nil => simp [splitChars]
  | cons a l ih =>
    have ha : a ≠ sep := h a (List.mem_cons_self a l)
    have hl := ih (fun c hc => h c (List.mem_cons_of_mem a hc))
    simp [splitChars, ha, hl]

/-- The formatted digits are digits. -/
theorem fmtUint_digits (fuel u : Nat) (acc : List Char) :
    ∀ c ∈ fmtUint fuel u acc, isDigit c = true ∨ c ∈ acc := by
  induction fuel generalizing u acc with
  | zero => intro c hc; exact Or.inr hc
  | succ k ih =>
    intro c hc
    unfold fmtUint at hc
    split at hc
    · rcases ih _ _ c hc with h | h
      · exact Or.inl h
      · rcases List.mem_cons.mp h with h | h
        · exact Or.inl (h ▸ digitChar_isDigit _ (Nat.mod_lt u (by decide : 0 < 10)))
        · exact Or.inr h
    · rcases List.mem_cons.mp hc with h | h
      · exact Or.inl (h ▸ digitChar_isDigit _ (by omega))
      · exact Or.inr h

/-- The path `/tickets/{id}` written with the decimal form of a Go `int`
addresses that id: it has a non-empty third segment and `Atoi` reads the id
back from it. -/
theorem ticketPath_addresses (id : Int) (hid : isGoInt id) :
    3 ≤ (stringsSplitSlash ("/tickets/" ++ sprintfD id)).length ∧
    pathPart2 (stringsSplitSlash ("/tickets/" ++ sprintfD id)) ≠ "" ∧
    atoi (pathPart2 (stringsSplitSlash ("/tickets/" ++ sprintfD id))) = id := by
  have hnoslash : ∀ c ∈ (sprintfD id).data, c ≠ '/' := by
    intro c hc
    have hdig : ∀ c ∈ fmtUint 20 id.natAbs [], c ≠ '/' := by
      intro c hc
      rcases fmtUint_digits 20 id.natAbs [] c hc with h | h
      · rintro rfl; revert h; decide
      · simp at h
    unfold sprintfD at hc
    simp only at hc
    split at hc
    · rcases List.mem_cons.mp hc with h | h
      · rw [h]; decide
      · exact hdig c h
    · exact hdig c hc
  have hsplit : stringsSplitSlash ("/tickets/" ++ sprintfD id)
      = ["", "tickets", sprintfD id] := by
    have hd : ("/tickets/" ++ sprintfD id).data
        = '/' :: 't' :: 'i' :: 'c' :: 'k' :: 'e' :: 't' :: 's' :: '/' :: (sprintfD id).data := by
      rw [String.data_append]; rfl
    have h1 := splitChars_piece '/' [] ("tickets".data ++ '/' :: (sprintfD id).data)
      (by simp)
    have h2 := splitChars_piece '/' "tickets".data (sprintfD id).data (by decide)
    have h3 := splitChars_no_sep '/' _ hnoslash
    unfold stringsSplitSlash
    rw [hd]
    rw [List.nil_append] at h1
    have e : '/' :: 't' :: 'i' :: 'c' :: 'k' :: 'e' :: 't' :: 's' :: '/' :: (sprintfD id).data
        = '/' :: ("tickets".data ++ '/' :: (sprintfD id).data) := rfl
    rw [e, h1, h2, h3]
    rfl
  have hne : sprintfD id ≠ "" := by
    obtain ⟨c, rest, hcr, _⟩ := fmtUint_head 19 id.natAbs []
    have hds : fmtUint 20 id.natAbs [] = c :: rest := hcr
    unfold sprintfD
    simp only [hds]
    intro h
    have := congrArg String.data h
    split at this <;> simp at this
  rw [hsplit]
  exact ⟨by simp, hne, atoi_sprintfD id hid⟩

/-! ## The library functions on concrete inputs -/

/-- The function `Atoi` with the error dropped: the number for a decimal
string with an optional sign, 0 for a string that is not a number, the
nearest bound for a number out of range, also when text follows the
overflowing digits. -/
theorem atoi_values :
    atoi "123" = 123 ∧ atoi "-123" = -123 ∧ atoi "+7" = 7 ∧ atoi "abc" = 0 ∧ atoi "" = 0 ∧
    atoi "-" = 0 ∧ atoi "9999x" = 0 ∧
    atoi "9223372036854775807" = 9223372036854775807 ∧
    atoi "9223372036854775808" = 9223372036854775807 ∧
    atoi "-9223372036854775808" = -9223372036854775808 ∧
    atoi "-9223372036854775809" = -9223372036854775808 ∧
    atoi "99999999999999999999999x" = 9223372036854775807 := by
  decide

/-- The verb `%d` on a few values, the smallest `int` among them. -/
theorem sprintfD_values :
    sprintfD 0 = "0" ∧ sprintfD 42 = "42" ∧ sprintfD (-5) = "-5" ∧
    sprintfD (-9223372036854775808) = "-9223372036854775808" := by
  decide

/-- The split of a ticket path, of the collection path and of the empty
string, and the trimming of the scheme. -/
theorem strings_values :
    stringsSplitSlash "/tickets/5" = ["", "tickets", "5"] ∧
    stringsSplitSlash "/tickets/" = ["", "tickets", ""] ∧
    stringsSplitSlash "/tickets" = ["", "tickets"] ∧
    stringsSplitSlash "" = [""] ∧
    stringsTrimPrefix "Bearer abc" "Bearer " = "abc" ∧
    stringsTrimPrefix "abc" "Bearer " = "abc" ∧
    stringsTrimPrefix "bearer abc" "Bearer " = "bearer abc" := by
  decide

end TicketService
